import Mathlib

/-!
Formal model of the donetick-mcp-server request pipeline
(`TokenBucket` and `DonetickClient._request` in `src/donetick_mcp/client.py`),
together with a model of `DonetickClient.get_chore` / `list_chores`.

Time and token counts are modelled over `ℚ`.  The HTTP transport is modelled
by a script assigning to every attempt index the transport-level result of
the call made on that attempt; `random.uniform(-0.25, 0.25)` is modelled by a
draw function `u : Nat → ℚ` giving the value drawn on each attempt.
Suspensions (`asyncio.sleep`) are recorded as a list of slept durations.
-/

set_option autoImplicit false

/-- Result of one transport-level HTTP attempt, as seen by the retry loop in
`DonetickClient._request`: a 2xx response with a JSON body, a transport
timeout (`httpx.TimeoutException`), or a response with an HTTP status code,
response body and optional `Retry-After` header value. -/
inductive AttemptResult where
  | success (body : String)
  | timeout
  | httpStatus (code : Nat) (body : String) (retryAfter : Option String)
deriving DecidableEq

/-- Terminal outcome of `DonetickClient._request`: the parsed body on success,
or the exception that propagates to the caller. `valueError` models the
`ValueError` raised by `float(retry_after)` on an unparsable header value;
`exhausted` models `Exception(f"Failed after \x7bmax_retries\x7d retries")`. -/
inductive ReqOutcome where
  | ok (body : String)
  | timeoutError
  | httpStatusError (code : Nat) (body : String)
  | valueError (s : String)
  | exhausted (maxRetries : Nat)
deriving DecidableEq

/-- Reads a list of decimal digit characters as a natural number; fails on any
non-digit character. -/
def digitsToNat (cs : List Char) : Option Nat :=
  cs.foldlM (fun acc c => if c.isDigit then some (acc * 10 + (c.toNat - 48)) else none) 0

/-- Strips leading and trailing whitespace from a character list (the
whitespace stripping `float` performs on its argument). -/
def trimChars (cs : List Char) : List Char :=
  ((cs.dropWhile Char.isWhitespace).reverse.dropWhile Char.isWhitespace).reverse

/-- Model of Python `float(s)` restricted to plain decimal numerals (optional
sign, digits, optional fractional part): returns the parsed rational, or
`none` exactly when Python `float` would raise `ValueError`.  Exponent,
`inf` and `nan` forms are not used by any input we consider. -/
def parseFloatQ (s : String) : Option ℚ :=
  let cs := trimChars s.toList
  let neg : Bool :=
    match cs with
    | '-' :: _ => true
    | _ => false
  let digits : List Char :=
    match cs with
    | '-' :: rest => rest
    | '+' :: rest => rest
    | _ => cs
  let signed : ℚ → ℚ := fun q => if neg then -q else q
  match digits.splitOn '.' with
  | [ip] =>
    if ip.isEmpty then none
    else (digitsToNat ip).map (fun n => signed (n : ℚ))
  | [ip, fp] =>
    if ip.isEmpty && fp.isEmpty then none
    else
      match digitsToNat ip, digitsToNat fp with
      | some i, some f => some (signed ((i : ℚ) + (f : ℚ) / (10 : ℚ) ^ fp.length))
      | _, _ => none
  | _ => none

/-- Exponential backoff delay for a given attempt index, from
`min(base_delay * (2**attempt), 60.0)` with `base_delay = 1.0`. -/
def backoffDelay (attempt : Nat) : ℚ :=
  min ((1 : ℚ) * 2 ^ attempt) 60

/-- The jittered wait actually slept before the next attempt:
`delay + jitter` with `jitter = delay * v`, where `v` is the value drawn by
`random.uniform(-0.25, 0.25)`. -/
def backoffWait (attempt : Nat) (v : ℚ) : ℚ :=
  backoffDelay attempt + backoffDelay attempt * v

/-- The retry loop of `DonetickClient._request`, starting at a given attempt
index with a given number of loop iterations remaining.  `u i` is the
`random.uniform(-0.25, 0.25)` draw of attempt `i` and `script i` the
transport result of the HTTP call made on attempt `i`.  Returns the terminal
outcome, the number of transport calls issued, and the list of slept
durations in order.  Mirrors `client.py` lines 143-199: a 429 sleeps for the
parsed `Retry-After` value (default string "60" when the header is absent)
and continues; `raise_for_status` raises for statuses in 400-599; 4xx other
than 429 re-raises immediately; timeouts and 5xx re-raise on the last
attempt (`attempt == max_retries - 1`) and otherwise sleep the jittered
backoff; a completed loop raises the exhausted error. -/
def requestAux (u : Nat → ℚ) (script : Nat → AttemptResult) (maxRetries : Nat) :
    Nat → Nat → ReqOutcome × Nat × List ℚ
  | _, 0 => (.exhausted maxRetries, 0, [])
  | attempt, r + 1 =>
    match script attempt with
    | .success body => (.ok body, 1, [])
    | .timeout =>
      if attempt = maxRetries - 1 then (.timeoutError, 1, [])
      else
        let rest := requestAux u script maxRetries (attempt + 1) r
        (rest.1, rest.2.1 + 1, backoffWait attempt (u attempt) :: rest.2.2)
    | .httpStatus code body retryAfter =>
      if code = 429 then
        match parseFloatQ (retryAfter.getD "60") with
        | none => (.valueError (retryAfter.getD "60"), 1, [])
        | some w =>
          let rest := requestAux u script maxRetries (attempt + 1) r
          (rest.1, rest.2.1 + 1, w :: rest.2.2)
      else if 400 ≤ code ∧ code < 600 then
        if 400 ≤ code ∧ code < 500 ∧ code ≠ 429 then (.httpStatusError code body, 1, [])
        else if attempt = maxRetries - 1 then (.httpStatusError code body, 1, [])
        else
          let rest := requestAux u script maxRetries (attempt + 1) r
          (rest.1, rest.2.1 + 1, backoffWait attempt (u attempt) :: rest.2.2)
      else (.ok body, 1, [])

/-- One logical request `DonetickClient._request(method, path, max_retries)`:
the retry loop run from attempt 0 with `max_retries` iterations remaining. -/
def requestLoop (maxRetries : Nat) (u : Nat → ℚ) (script : Nat → AttemptResult) :
    ReqOutcome × Nat × List ℚ :=
  requestAux u script maxRetries 0 maxRetries

/-- A transport result that the 429 branch of the loop handles by sleeping
and continuing: a 429 response whose `Retry-After` value (default "60" when
the header is absent) parses as a number. -/
def is429Retryable : AttemptResult → Prop
  | .httpStatus code _ retryAfter => code = 429 ∧ (parseFloatQ (retryAfter.getD "60")).isSome = true
  | _ => False

/-- State of the `TokenBucket` rate limiter (`client.py` lines 17-32):
refill rate in tokens per second, maximum capacity, current token count, and
the timestamp of the last refill computation. -/
structure TokenBucket where
  rate : ℚ
  capacity : ℚ
  tokens : ℚ
  lastUpdate : ℚ
deriving DecidableEq

/-- A freshly constructed bucket: `tokens = float(capacity)`,
`last_update = time.time()` at construction time `now`. -/
def TokenBucket.init (rate capacity now : ℚ) : TokenBucket :=
  ⟨rate, capacity, capacity, now⟩

/-- The refill step at the top of the `acquire` loop (`client.py` lines
43-48): `tokens = min(capacity, tokens + elapsed * rate)` with
`elapsed = now - last_update`, then `last_update = now`. -/
def TokenBucket.refill (b : TokenBucket) (now : ℚ) : TokenBucket :=
  { b with
    tokens := min b.capacity (b.tokens + (now - b.lastUpdate) * b.rate)
    lastUpdate := now }

/-- The wait computed when tokens are insufficient (`client.py` line 55):
`(tokens_requested - self.tokens) / self.rate`. -/
def TokenBucket.waitTime (b : TokenBucket) (n : ℚ) : ℚ :=
  (n - b.tokens) / b.rate

/-- The `while True` loop of `TokenBucket.acquire(n)` (`client.py` lines
41-56).  Each iteration reads the clock; the schedule `sched` supplies the
successive `time.time()` readings (the model's fuel: an empty schedule means
the run is truncated while still waiting).  Returns the final bucket state
when the acquire completed (`none` if truncated) and the list of slept
durations. -/
def TokenBucket.acquireLoop (n : ℚ) : TokenBucket → List ℚ → Option TokenBucket × List ℚ
  | _, [] => (none, [])
  | b, now :: rest =>
    let b' := b.refill now
    if n ≤ b'.tokens then (some { b' with tokens := b'.tokens - n }, [])
    else
      ((TokenBucket.acquireLoop n b' rest).1,
        b'.waitTime n :: (TokenBucket.acquireLoop n b' rest).2)

/-- Invariant claimed for the bucket: the token count lies in
`[0, capacity]`. -/
def TokenBucket.Inv (b : TokenBucket) : Prop :=
  0 ≤ b.tokens ∧ b.tokens ≤ b.capacity

/-- A schedule of clock readings is valid from time `t` when it is
non-decreasing and starts no earlier than `t` (the clock does not run
backwards). -/
def ValidFrom : ℚ → List ℚ → Prop
  | _, [] => True
  | t, now :: rest => t ≤ now ∧ ValidFrom now rest

/-- Observable events of one `TokenBucket.acquire` call, used to model where
the `asyncio.Lock` is held relative to the `asyncio.sleep` suspensions. -/
inductive LimiterEvent where
  | lockAcquire
  | lockRelease
  | sleep (w : ℚ)
  | tokensTaken (n : ℚ)
deriving DecidableEq

/-- Events produced by the body of the `while True` loop of
`TokenBucket.acquire` (inside the `async with self.lock` block): each
iteration either takes the tokens and returns, or sleeps the computed wait
and loops. -/
def acquireEvents (n : ℚ) : TokenBucket → List ℚ → List LimiterEvent
  | _, [] => []
  | b, now :: rest =>
    let b' := b.refill now
    if n ≤ b'.tokens then [.tokensTaken n]
    else .sleep (b'.waitTime n) :: acquireEvents n b' rest

/-- The full event trace of one completed `TokenBucket.acquire(n)` call:
the source wraps the whole loop in `async with self.lock` (`client.py`
line 41), so the lock is acquired before the first iteration and released
only when the function returns. -/
def acquireTrace (n : ℚ) (b : TokenBucket) (sched : List ℚ) : List LimiterEvent :=
  .lockAcquire :: (acquireEvents n b sched ++ [.lockRelease])

/-- Whether some `sleep` event in the trace occurs while the lock is held
(`d` is the lock depth at the start of the trace). -/
def anySleepLocked : Nat → List LimiterEvent → Bool
  | _, [] => false
  | d, .lockAcquire :: rest => anySleepLocked (d + 1) rest
  | d, .lockRelease :: rest => anySleepLocked (d - 1) rest
  | d, .sleep _ :: rest => decide (0 < d) || anySleepLocked d rest
  | d, .tokensTaken _ :: rest => anySleepLocked d rest

/-- Whether every `sleep` event in the trace occurs while the lock is held. -/
def allSleepsLocked : Nat → List LimiterEvent → Bool
  | _, [] => true
  | d, .lockAcquire :: rest => allSleepsLocked (d + 1) rest
  | d, .lockRelease :: rest => allSleepsLocked (d - 1) rest
  | d, .sleep _ :: rest => decide (0 < d) && allSleepsLocked d rest
  | d, .tokensTaken _ :: rest => allSleepsLocked d rest

/-- The fields of a chore record that the client-side logic inspects
(`models.py` `Chore`; the remaining fields are opaque payload). -/
structure Chore where
  id : Int
  name : String
  isActive : Bool
  assignedTo : Int
deriving DecidableEq

/-- The path requested by `list_chores` (`client.py` line 217). -/
def choreListPath : String := "/eapi/v1/chore"

/-- Pure part of `DonetickClient.list_chores` (`client.py` lines 201-232):
the server's chore list, filtered by `isActive` and then by `assignedTo`
when the respective filter arguments are given. -/
def list_chores (data : List Chore) (filter_active : Option Bool)
    (assigned_to_user_id : Option Int) : List Chore :=
  let chores :=
    match filter_active with
    | some fa => data.filter (fun c => c.isActive == fa)
    | none => data
  match assigned_to_user_id with
  | some uid => chores.filter (fun c => c.assignedTo == uid)
  | none => chores

/-- `DonetickClient.list_chores` with its transport effect: it issues exactly
one GET request to the chore-list path and returns the (filtered) list. -/
def list_choresR (data : List Chore) (filter_active : Option Bool)
    (assigned_to_user_id : Option Int) : List (String × String) × List Chore :=
  ([("GET", choreListPath)], list_chores data filter_active assigned_to_user_id)

/-- `DonetickClient.get_chore` (`client.py` lines 234-256): fetches all
chores via one `list_chores()` call (no per-id endpoint exists), returns the
first chore whose `id` equals `chore_id`, and `None` when no chore matches.
The first component is the list of transport requests issued. -/
def get_chore (data : List Chore) (chore_id : Int) :
    List (String × String) × Option Chore :=
  let r := list_choresR data none none
  (r.1, r.2.find? (fun c => c.id == chore_id))

/-- Script used to exhibit the behavior of `_request` on a 429 response whose
`Retry-After` header is not a numeral: first attempt gets the 429, any later
attempt would succeed. -/
def c3Script : Nat → AttemptResult := fun i =>
  if i = 0 then .httpStatus 429 "" (some "oops") else .success "[]"


/-! ### Helper lemmas about the retry loop -/

theorem backoffDelay_nonneg (a : Nat) : 0 ≤ backoffDelay a :=
  le_min (by positivity) (by norm_num)

theorem requestAux_calls_le (u : Nat → ℚ) (script : Nat → AttemptResult) (mR : Nat) :
    ∀ (r attempt : Nat), (requestAux u script mR attempt r).2.1 ≤ r := by
  intro r
  induction r with
  | zero => intro attempt; simp [requestAux]
  | succ r ih =>
    intro attempt
    have hrec := ih (attempt + 1)
    cases hs : script attempt with
    | success body => simp [requestAux, hs]
    | timeout =>
      by_cases hl : attempt = mR - 1
      · subst hl; simp [requestAux, hs]
      · simp only [requestAux, hs, if_neg hl]
        show (requestAux u script mR (attempt + 1) r).2.1 + 1 ≤ r + 1
        omega
    | httpStatus code body ra =>
      by_cases h429 : code = 429
      · rcases hp : parseFloatQ (ra.getD "60") with _ | w
        · simp [requestAux, hs, h429, hp]
        · simp only [requestAux, hs, if_pos h429, hp]
          show (requestAux u script mR (attempt + 1) r).2.1 + 1 ≤ r + 1
          omega
      · by_cases h46 : 400 ≤ code ∧ code < 600
        · by_cases h45 : 400 ≤ code ∧ code < 500 ∧ code ≠ 429
          · simp [requestAux, hs, h429, h46, h45]
          · by_cases hl : attempt = mR - 1
            · subst hl; simp [requestAux, hs, h429, h46, h45]
            · simp only [requestAux, hs, if_neg h429, if_pos h46, if_neg h45, if_neg hl]
              show (requestAux u script mR (attempt + 1) r).2.1 + 1 ≤ r + 1
              omega
        · simp [requestAux, hs, h429, h46]

theorem requestAux_all_timeout (u : Nat → ℚ) (script : Nat → AttemptResult) (mR : Nat)
    (hs : ∀ i, script i = .timeout) :
    ∀ (r attempt : Nat), attempt + r = mR → 1 ≤ r →
      (requestAux u script mR attempt r).1 = .timeoutError ∧
      (requestAux u script mR attempt r).2.1 = r := by
  intro r
  induction r with
  | zero => intro attempt _ h1; omega
  | succ r ih =>
    intro attempt hsum _
    rcases Nat.eq_zero_or_pos r with hr | hr
    · subst hr
      have hl : attempt = mR - 1 := by omega
      simp [requestAux, hs, hl]
    · have hl : ¬ attempt = mR - 1 := by omega
      have hrec := ih (attempt + 1) (by omega) (by omega)
      simp only [requestAux, hs, if_neg hl]
      refine ⟨hrec.1, ?_⟩
      show (requestAux u script mR (attempt + 1) r).2.1 + 1 = r + 1
      omega

theorem requestAux_all_5xx (u : Nat → ℚ) (script : Nat → AttemptResult) (mR : Nat)
    (code : Nat) (body : String) (h5 : 500 ≤ code) (h6 : code < 600)
    (hs : ∀ i, script i = .httpStatus code body none) :
    ∀ (r attempt : Nat), attempt + r = mR → 1 ≤ r →
      (requestAux u script mR attempt r).1 = .httpStatusError code body ∧
      (requestAux u script mR attempt r).2.1 = r := by
  have h429 : ¬ code = 429 := by omega
  have h44 : 400 ≤ code := by omega
  have h45 : ¬ (400 ≤ code ∧ code < 500 ∧ code ≠ 429) := by omega
  intro r
  induction r with
  | zero => intro attempt _ h1; omega
  | succ r ih =>
    intro attempt hsum _
    rcases Nat.eq_zero_or_pos r with hr | hr
    · subst hr
      have hl : attempt = mR - 1 := by omega
      simp [requestAux, hs, h429, h44, h6, h45, hl]
    · have hl : ¬ attempt = mR - 1 := by omega
      have hrec := ih (attempt + 1) (by omega) (by omega)
      simp only [requestAux, hs, if_neg h429, if_pos (And.intro h44 h6), if_neg h45, if_neg hl]
      refine ⟨hrec.1, ?_⟩
      show (requestAux u script mR (attempt + 1) r).2.1 + 1 = r + 1
      omega

theorem requestAux_all_429 (u : Nat → ℚ) (script : Nat → AttemptResult) (mR : Nat) :
    ∀ (r attempt : Nat), (∀ i, attempt ≤ i → i < attempt + r → is429Retryable (script i)) →
      (requestAux u script mR attempt r).1 = .exhausted mR ∧
      (requestAux u script mR attempt r).2.1 = r := by
  intro r
  induction r with
  | zero => intro attempt _; simp [requestAux]
  | succ r ih =>
    intro attempt h
    have h0 := h attempt (Nat.le_refl _) (by omega)
    cases hs : script attempt with
    | success body => rw [hs] at h0; simp [is429Retryable] at h0
    | timeout => rw [hs] at h0; simp [is429Retryable] at h0
    | httpStatus code body ra =>
      rw [hs] at h0
      simp only [is429Retryable] at h0
      obtain ⟨hc, hp⟩ := h0
      subst hc
      obtain ⟨w, hw⟩ := Option.isSome_iff_exists.mp hp
      have hrec := ih (attempt + 1) (fun i h1 h2 => h i (by omega) (by omega))
      simp only [requestAux, hs, if_pos rfl, hw]
      refine ⟨hrec.1, ?_⟩
      show (requestAux u script mR (attempt + 1) r).2.1 + 1 = r + 1
      omega

/-! ### Helper lemmas about the token bucket -/

theorem TokenBucket.refill_le_capacity (b : TokenBucket) (now : ℚ) :
    (b.refill now).tokens ≤ b.capacity :=
  min_le_left _ _

theorem TokenBucket.refill_nonneg (b : TokenBucket) (now : ℚ)
    (h0 : 0 ≤ b.tokens) (hc : b.tokens ≤ b.capacity) (hr : 0 ≤ b.rate)
    (hn : b.lastUpdate ≤ now) : 0 ≤ (b.refill now).tokens := by
  have hm : (0 : ℚ) ≤ (now - b.lastUpdate) * b.rate :=
    mul_nonneg (by linarith) hr
  exact le_min (by linarith) (by linarith)

theorem TokenBucket.refill_mono (b : TokenBucket) (now : ℚ)
    (hc : b.tokens ≤ b.capacity) (hr : 0 ≤ b.rate) (hn : b.lastUpdate ≤ now) :
    b.tokens ≤ (b.refill now).tokens := by
  have hm : (0 : ℚ) ≤ (now - b.lastUpdate) * b.rate :=
    mul_nonneg (by linarith) hr
  exact le_min hc (by linarith)

theorem acquireLoop_inv (n : ℚ) (hn : 0 ≤ n) :
    ∀ (sched : List ℚ) (b : TokenBucket), b.Inv → 0 ≤ b.rate →
      ValidFrom b.lastUpdate sched →
      ∀ b', (TokenBucket.acquireLoop n b sched).1 = some b' → b'.Inv := by
  intro sched
  induction sched with
  | nil => intro b _ _ _ b' h; simp [TokenBucket.acquireLoop] at h
  | cons now rest ih =>
    intro b hinv hr hv b' h
    obtain ⟨hle, hv'⟩ := hv
    have hinv' : (b.refill now).Inv :=
      ⟨TokenBucket.refill_nonneg b now hinv.1 hinv.2 hr hle,
        TokenBucket.refill_le_capacity b now⟩
    rw [TokenBucket.acquireLoop] at h
    by_cases hcase : n ≤ (b.refill now).tokens
    · rw [if_pos hcase] at h
      simp only [Option.some.injEq] at h
      subst h
      exact ⟨by simpa using sub_nonneg.mpr hcase, by
        have := hinv'.2
        simpa using by linarith⟩
    · rw [if_neg hcase] at h
      exact ih (b.refill now) hinv' hr hv' b' h

theorem acquireLoop_none_over_capacity (n : ℚ) :
    ∀ (sched : List ℚ) (b : TokenBucket), b.capacity < n →
      (TokenBucket.acquireLoop n b sched).1 = none ∧
      (TokenBucket.acquireLoop n b sched).2.length = sched.length := by
  intro sched
  induction sched with
  | nil => intro b _; exact ⟨rfl, rfl⟩
  | cons now rest ih =>
    intro b h
    have hcase : ¬ n ≤ (b.refill now).tokens := by
      have := TokenBucket.refill_le_capacity b now
      intro hle
      linarith
    rw [TokenBucket.acquireLoop, if_neg hcase]
    have hrec := ih (b.refill now) h
    exact ⟨hrec.1, by simp [hrec.2]⟩

theorem allSleepsLocked_append_events (n : ℚ) :
    ∀ (sched : List ℚ) (b : TokenBucket) (d : Nat) (tail : List LimiterEvent), 0 < d →
      allSleepsLocked d (acquireEvents n b sched ++ tail) = allSleepsLocked d tail := by
  intro sched
  induction sched with
  | nil => intro b d tail _; rfl
  | cons now rest ih =>
    intro b d tail hd
    rw [acquireEvents]
    by_cases hcase : n ≤ (b.refill now).tokens
    · rw [if_pos hcase]; rfl
    · rw [if_neg hcase]
      show allSleepsLocked d
        (.sleep ((b.refill now).waitTime n) :: (acquireEvents n (b.refill now) rest ++ tail))
        = allSleepsLocked d tail
      rw [allSleepsLocked, ih (b.refill now) d tail hd, decide_eq_true hd, Bool.true_and]

/-! ### Claim theorems: retry loop -/

/-- Claim C1: with `max_retries = N`, at most `N` HTTP transport calls are
issued per logical request regardless of how attempts fail; and when every
attempt times out, or every attempt returns a fixed 5xx status, exactly `N`
calls are made and the Nth failure propagates as the terminal error
(the timeout, resp. the HTTP status error). -/
theorem c1_retry_ceiling (mR : Nat) (u : Nat → ℚ) (script : Nat → AttemptResult) :
    (requestLoop mR u script).2.1 ≤ mR ∧
    ((∀ i, script i = .timeout) → 1 ≤ mR →
      (requestLoop mR u script).1 = .timeoutError ∧
      (requestLoop mR u script).2.1 = mR) ∧
    (∀ code body, 500 ≤ code → code < 600 →
      (∀ i, script i = .httpStatus code body none) → 1 ≤ mR →
      (requestLoop mR u script).1 = .httpStatusError code body ∧
      (requestLoop mR u script).2.1 = mR) :=
  ⟨requestAux_calls_le u script mR mR 0,
    fun hs h1 => requestAux_all_timeout u script mR hs mR 0 (by omega) h1,
    fun code body h5 h6 hs h1 =>
      requestAux_all_5xx u script mR code body h5 h6 hs mR 0 (by omega) h1⟩

/-- Witness for C1 at `max_retries = 3` and an always-timing-out transport. -/
theorem c1_retry_ceiling_witness :
    (requestLoop 3 (fun _ => 0) (fun _ => .timeout)).1 = .timeoutError ∧
    (requestLoop 3 (fun _ => 0) (fun _ => .timeout)).2.1 = 3 :=
  (c1_retry_ceiling 3 (fun _ => 0) (fun _ => .timeout)).2.1 (fun _ => rfl) (by omega)

/-- Claim C2: a response with status in 400-499 other than 429 on the first
attempt makes `_request` fail immediately with the HTTP status error carrying
the status and body, after exactly one transport call and with no sleeps. -/
theorem c2_fatal_client_error (mR : Nat) (u : Nat → ℚ) (script : Nat → AttemptResult)
    (code : Nat) (body : String) (ra : Option String)
    (hs : script 0 = .httpStatus code body ra)
    (h4 : 400 ≤ code) (h5 : code < 500) (h9 : code ≠ 429) (h1 : 1 ≤ mR) :
    requestLoop mR u script = (.httpStatusError code body, 1, []) := by
  obtain ⟨m, rfl⟩ : ∃ m, mR = m + 1 := ⟨mR - 1, by omega⟩
  have h6 : code < 600 := by omega
  simp [requestLoop, requestAux, hs, h9, h4, h5, h6]

/-- Witness for C2: a single 404 response. -/
theorem c2_fatal_client_error_witness :
    requestLoop 3 (fun _ => 0) (fun _ => .httpStatus 404 "not found" none)
      = (.httpStatusError 404 "not found", 1, []) :=
  c2_fatal_client_error 3 (fun _ => 0) (fun _ => .httpStatus 404 "not found" none)
    404 "not found" none rfl (by omega) (by omega) (by omega) (by omega)

/-- Counterexample to claim C3: on a 429 response whose `Retry-After` header
value is not parsable as a number ("oops"), `_request` does not default to a
60-second wait and retry; `float(retry_after)` raises a `ValueError` that
propagates after a single transport call and with no sleep at all. -/
theorem c3_retry_after_counterexample :
    requestLoop 3 (fun _ => 0) c3Script = (.valueError "oops", 1, []) ∧
    (requestLoop 3 (fun _ => 0) c3Script).2.2 ≠ [(60 : ℚ)] := by
  refine ⟨by decide, ?_⟩
  intro h
  have : ([] : List ℚ) = [(60 : ℚ)] := by
    have he : requestLoop 3 (fun _ => 0) c3Script = (.valueError "oops", 1, []) := by decide
    rw [he] at h
    exact h
  simp at this

/-- Claim C3 as amended: on a 429 response the loop reads `Retry-After`,
defaulting to the string "60" only when the header is absent; when the value
parses as a number `w` the loop sleeps `w` seconds and retries, the retry
consuming one attempt slot (the continuation runs with one fewer remaining
iteration); when the header is present but unparsable, a `ValueError`
propagates immediately instead of any default. -/
theorem c3_retry_after_amended (u : Nat → ℚ) (script : Nat → AttemptResult)
    (mR attempt r : Nat) (body : String) (ra : Option String)
    (hs : script attempt = .httpStatus 429 body ra) :
    (ra = none →
      requestAux u script mR attempt (r + 1)
        = ((requestAux u script mR (attempt + 1) r).1,
            (requestAux u script mR (attempt + 1) r).2.1 + 1,
            60 :: (requestAux u script mR (attempt + 1) r).2.2)) ∧
    (∀ s w, ra = some s → parseFloatQ s = some w →
      requestAux u script mR attempt (r + 1)
        = ((requestAux u script mR (attempt + 1) r).1,
            (requestAux u script mR (attempt + 1) r).2.1 + 1,
            w :: (requestAux u script mR (attempt + 1) r).2.2)) ∧
    (∀ s, ra = some s → parseFloatQ s = none →
      requestAux u script mR attempt (r + 1) = (.valueError s, 1, [])) := by
  refine ⟨?_, ?_, ?_⟩
  · rintro rfl
    have h60 : parseFloatQ ((none : Option String).getD "60") = some 60 := by decide
    simp only [requestAux, hs, if_pos rfl, if_true, h60]
  · rintro s w rfl hw
    simp only [requestAux, hs, if_pos rfl, if_true, Option.getD_some, hw]
  · rintro s rfl hw
    simp only [requestAux, hs, if_pos rfl, if_true, Option.getD_some, hw]

/-- Witness for the amended C3: a 429 with no `Retry-After` header sleeps 60
seconds and hands over to the next attempt. -/
theorem c3_retry_after_amended_witness :
    requestAux (fun _ => 0) (fun _ => .httpStatus 429 "" none) 3 0 3
      = ((requestAux (fun _ => 0) (fun _ => .httpStatus 429 "" none) 3 1 2).1,
          (requestAux (fun _ => 0) (fun _ => .httpStatus 429 "" none) 3 1 2).2.1 + 1,
          60 :: (requestAux (fun _ => 0) (fun _ => .httpStatus 429 "" none) 3 1 2).2.2) :=
  (c3_retry_after_amended (fun _ => 0) (fun _ => .httpStatus 429 "" none) 3 0 2 "" none rfl).1 rfl

/-- Claim C7: for a retryable timeout or 5xx on a non-final attempt, the
suspension equals `d + j` with `d = min(1.0 * 2^attempt, 60.0)` and jitter
`j = d * v` for a draw `v` in `[-0.25, 0.25]`, so `|j| ≤ 0.25 * d` and the
wait lies in `[0.75 * d, 1.25 * d]`; moreover the first slept duration of a
run whose first attempt times out (or 5xx-fails) below the retry ceiling is
exactly `backoffWait 0 (u 0)`. -/
theorem c7_backoff_jitter (a : Nat) (v : ℚ) (mR : Nat) (u : Nat → ℚ)
    (script : Nat → AttemptResult)
    (hv1 : -(1/4 : ℚ) ≤ v) (hv2 : v ≤ 1/4) (h2 : 2 ≤ mR) :
    (backoffDelay a = min ((1 : ℚ) * 2 ^ a) 60 ∧
      backoffWait a v = backoffDelay a + backoffDelay a * v) ∧
    |backoffDelay a * v| ≤ (1/4 : ℚ) * backoffDelay a ∧
    ((3/4 : ℚ) * backoffDelay a ≤ backoffWait a v ∧
      backoffWait a v ≤ (5/4 : ℚ) * backoffDelay a) ∧
    (script 0 = .timeout →
      (requestLoop mR u script).2.2.head? = some (backoffWait 0 (u 0))) ∧
    (∀ code body ra, script 0 = .httpStatus code body ra → 500 ≤ code → code < 600 →
      (requestLoop mR u script).2.2.head? = some (backoffWait 0 (u 0))) := by
  have hd : 0 ≤ backoffDelay a := backoffDelay_nonneg a
  obtain ⟨m, rfl⟩ : ∃ m, mR = m + 2 := ⟨mR - 2, by omega⟩
  have hl : ¬ (0 : Nat) = m + 2 - 1 := by omega
  refine ⟨⟨rfl, rfl⟩, ?_, ⟨?_, ?_⟩, ?_, ?_⟩
  · rw [abs_le]
    constructor <;> nlinarith
  · rw [backoffWait]; nlinarith
  · rw [backoffWait]; nlinarith
  · intro hs
    simp only [requestLoop, requestAux, hs, if_neg hl]
    rfl
  · intro code body ra hs h5 h6
    have h429 : ¬ code = 429 := by omega
    have h45 : ¬ (400 ≤ code ∧ code < 500 ∧ code ≠ 429) := by omega
    simp only [requestLoop, requestAux, hs, if_neg h429,
      if_pos (And.intro (by omega : 400 ≤ code) h6), if_neg h45, if_neg hl]
    rfl

/-- Witness for C7 with draw `v = 1/8`, attempt 1, `max_retries = 2` and a
timing-out first attempt. -/
theorem c7_backoff_jitter_witness :
    |backoffDelay 1 * (1/8 : ℚ)| ≤ (1/4 : ℚ) * backoffDelay 1 ∧
    (requestLoop 2 (fun _ => (1/8 : ℚ)) (fun _ => .timeout)).2.2.head?
      = some (backoffWait 0 ((fun _ => (1/8 : ℚ)) 0)) :=
  ⟨(c7_backoff_jitter 1 (1/8) 2 (fun _ => (1/8 : ℚ)) (fun _ => .timeout)
      (by norm_num) (by norm_num) (by omega)).2.1,
    (c7_backoff_jitter 1 (1/8) 2 (fun _ => (1/8 : ℚ)) (fun _ => .timeout)
      (by norm_num) (by norm_num) (by omega)).2.2.2.1 rfl⟩

/-- Claim C9: when every one of the `max_retries` attempts receives a 429
response whose `Retry-After` value is absent or parsable, the loop completes
all attempts without success and without any other error, and `_request`
fails with the exhausted-retries terminal error after exactly `max_retries`
transport calls; no distinct terminal error is produced by those 429s before
that point. -/
theorem c9_exhausted_after_429s (mR : Nat) (u : Nat → ℚ) (script : Nat → AttemptResult)
    (h : ∀ i, i < mR → is429Retryable (script i)) :
    (requestLoop mR u script).1 = .exhausted mR ∧
    (requestLoop mR u script).2.1 = mR :=
  requestAux_all_429 u script mR mR 0 (fun i _ h2 => h i (by omega))

/-- Witness for C9: two attempts, both 429 with no `Retry-After` header. -/
theorem c9_exhausted_after_429s_witness :
    (requestLoop 2 (fun _ => 0) (fun _ => .httpStatus 429 "" none)).1 = .exhausted 2 ∧
    (requestLoop 2 (fun _ => 0) (fun _ => .httpStatus 429 "" none)).2.1 = 2 :=
  c9_exhausted_after_429s 2 (fun _ => 0) (fun _ => .httpStatus 429 "" none)
    (fun i _ => ⟨rfl, by decide⟩)

/-! ### Claim theorems: token bucket and chores -/

/-- Claim C4: `acquire(n)` with `1 ≤ n ≤ capacity` first refills by
`elapsed * rate` clamped to `capacity` and updates the last-refill
timestamp; if the refilled count is at least `n`, exactly `n` tokens are
subtracted and the call returns with no sleep; otherwise the caller sleeps
exactly the time needed for the token count to reach `n` at the refill rate
(`tokens + waitTime * rate = n`) and the check is re-evaluated by looping. -/
theorem c4_acquire_behavior (b : TokenBucket) (n now : ℚ) (sched : List ℚ)
    (hn : 1 ≤ n) (hcap : n ≤ b.capacity) (hrate : 0 < b.rate) :
    ((b.refill now).tokens = min b.capacity (b.tokens + (now - b.lastUpdate) * b.rate) ∧
      (b.refill now).lastUpdate = now) ∧
    (n ≤ (b.refill now).tokens →
      TokenBucket.acquireLoop n b (now :: sched)
        = (some { b.refill now with tokens := (b.refill now).tokens - n }, [])) ∧
    (¬ n ≤ (b.refill now).tokens →
      (b.refill now).tokens + (b.refill now).waitTime n * (b.refill now).rate = n ∧
      TokenBucket.acquireLoop n b (now :: sched)
        = ((TokenBucket.acquireLoop n (b.refill now) sched).1,
            (b.refill now).waitTime n :: (TokenBucket.acquireLoop n (b.refill now) sched).2)) := by
  refine ⟨⟨rfl, rfl⟩, ?_, ?_⟩
  · intro h
    rw [TokenBucket.acquireLoop, if_pos h]
  · intro h
    refine ⟨?_, by rw [TokenBucket.acquireLoop, if_neg h]⟩
    have hr0 : (b.refill now).rate ≠ 0 := ne_of_gt hrate
    rw [TokenBucket.waitTime, div_mul_cancel₀ _ hr0]
    ring

/-- Witness for C4: a bucket with rate 2, capacity 10, 10 tokens, refilled at
time 1, immediately grants 3 tokens. -/
theorem c4_acquire_behavior_witness :
    TokenBucket.acquireLoop 3 ⟨2, 10, 10, 0⟩ [1]
      = (some { TokenBucket.refill ⟨2, 10, 10, 0⟩ 1 with
                  tokens := (TokenBucket.refill ⟨2, 10, 10, 0⟩ 1).tokens - 3 }, []) :=
  (c4_acquire_behavior ⟨2, 10, 10, 0⟩ 3 1 [] (by norm_num) (by norm_num) (by norm_num)).2.1
    (by norm_num [TokenBucket.refill])

/-- Claim C5: for a bucket whose token count lies in `[0, capacity]`, with a
nonnegative rate and a nonnegative acquire amount, the token count stays in
`[0, capacity]`: a refill never pushes it above `capacity` no matter how
large the elapsed time is, a refill over nonnegative elapsed time only
increases it (time-proportional refill), and any state in which an
`acquire` run over a valid clock schedule completes still satisfies the
invariant. -/
theorem c5_tokens_in_range (b : TokenBucket) (n e : ℚ) (sched : List ℚ)
    (hinv : b.Inv) (hrate : 0 ≤ b.rate) (hn : 0 ≤ n) :
    (b.refill e).tokens ≤ b.capacity ∧
    (b.lastUpdate ≤ e → 0 ≤ (b.refill e).tokens ∧ b.tokens ≤ (b.refill e).tokens) ∧
    (ValidFrom b.lastUpdate sched →
      ∀ b', (TokenBucket.acquireLoop n b sched).1 = some b' → b'.Inv) :=
  ⟨TokenBucket.refill_le_capacity b e,
    fun he => ⟨TokenBucket.refill_nonneg b e hinv.1 hinv.2 hrate he,
      TokenBucket.refill_mono b e hinv.2 hrate he⟩,
    fun hv b' h => acquireLoop_inv n hn sched b hinv hrate hv b' h⟩

/-- Witness for C5: acquiring 2 tokens from a full bucket of capacity 5 at
rate 1 leaves the bucket state inside the invariant. -/
theorem c5_tokens_in_range_witness : TokenBucket.Inv ⟨1, 5, 3, 1⟩ :=
  (c5_tokens_in_range ⟨1, 5, 5, 0⟩ 2 3 [1]
      ⟨by norm_num, by norm_num⟩ (by norm_num) (by norm_num)).2.2
    (by norm_num [ValidFrom])
    ⟨1, 5, 3, 1⟩
    (by norm_num [TokenBucket.acquireLoop, TokenBucket.refill, min_def])

/-- Claim C6 (the behavior the code actually has at the claimed failing
input): `acquire(n)` with `n` greater than `capacity` never raises a fatal
misuse error and never completes; since the refill clamps the token count to
`capacity < n`, every iteration of the loop sleeps again — for every clock
schedule the run is still waiting at the end of the schedule, having slept
once per iteration. -/
theorem c6_over_capacity_waits_forever (b : TokenBucket) (n : ℚ)
    (hover : b.capacity < n) (sched : List ℚ) :
    (TokenBucket.acquireLoop n b sched).1 = none ∧
    (TokenBucket.acquireLoop n b sched).2.length = sched.length :=
  acquireLoop_none_over_capacity n sched b hover

/-- Witness for C6: requesting 2 tokens from a bucket of capacity 1 sleeps at
every of three clock readings and never completes. -/
theorem c6_over_capacity_waits_forever_witness :
    (TokenBucket.acquireLoop 2 ⟨1, 1, 1, 0⟩ [1, 2, 3]).1 = none ∧
    (TokenBucket.acquireLoop 2 ⟨1, 1, 1, 0⟩ [1, 2, 3]).2.length = 3 :=
  c6_over_capacity_waits_forever ⟨1, 1, 1, 0⟩ 2 (by norm_num) [1, 2, 3]

/-- Counterexample to claim C8: the suspension of a waiting `acquire` caller
does not happen outside the mutual-exclusion section.  For an empty bucket
(rate 1, capacity 1, 0 tokens) the trace of `acquire(1)` sleeps while the
lock is held: `async with self.lock` encloses the whole waiting loop. -/
theorem c8_sleep_outside_lock_counterexample :
    anySleepLocked 0 (acquireTrace 1 ⟨1, 1, 0, 0⟩ [0, 1]) = true ∧
    acquireTrace 1 ⟨1, 1, 0, 0⟩ [0, 1]
      = [.lockAcquire, .sleep 1, .tokensTaken 1, .lockRelease] := by
  constructor
  · norm_num [acquireTrace, acquireEvents, TokenBucket.refill, TokenBucket.waitTime,
      min_def, anySleepLocked]
  · norm_num [acquireTrace, acquireEvents, TokenBucket.refill, TokenBucket.waitTime, min_def]

/-- Claim C8 as amended: every suspension of a waiting `acquire` caller
happens inside the mutual-exclusion section — the caller holds the bucket's
lock while sleeping, so other callers' refill accounting is blocked until
its own acquisition completes. -/
theorem c8_sleeps_inside_lock (n : ℚ) (b : TokenBucket) (sched : List ℚ) :
    allSleepsLocked 0 (acquireTrace n b sched) = true := by
  rw [acquireTrace]
  show allSleepsLocked 1 (acquireEvents n b sched ++ [.lockRelease]) = true
  rw [allSleepsLocked_append_events n sched b 1 [.lockRelease] (by omega)]
  rfl

/-- Claim C10: `get_chore(chore_id)` issues exactly one GET request to the
chore-list endpoint (no per-id endpoint), returns a chore only if it occurs
in the fetched list with the requested id, returns a result whenever some
chore in the list has that id, and returns `None` (no error) when no chore
matches. -/
theorem c10_get_chore_spec (data : List Chore) (chore_id : Int) :
    (get_chore data chore_id).1 = [("GET", "/eapi/v1/chore")] ∧
    (∀ c, (get_chore data chore_id).2 = some c → c ∈ data ∧ c.id = chore_id) ∧
    ((∃ c ∈ data, c.id = chore_id) → (get_chore data chore_id).2 ≠ none) ∧
    ((∀ c ∈ data, c.id ≠ chore_id) → (get_chore data chore_id).2 = none) := by
  have hfind : (get_chore data chore_id).2 = data.find? (fun c => c.id == chore_id) := rfl
  refine ⟨rfl, ?_, ?_, ?_⟩
  · intro c hc
    rw [hfind] at hc
    refine ⟨List.mem_of_find?_eq_some hc, ?_⟩
    have := List.find?_some hc
    simpa using this
  · rintro ⟨c, hmem, hid⟩ hnone
    rw [hfind] at hnone
    have := List.find?_eq_none.mp hnone c hmem
    simp [hid] at this
  · intro h
    rw [hfind]
    exact List.find?_eq_none.mpr (fun c hc => by simpa using h c hc)

/-- Witness for C10: looking up id 2 in a two-chore list finds the matching
chore. -/
theorem c10_get_chore_spec_witness :
    (⟨2, "Other", false, 2⟩ : Chore)
        ∈ [(⟨1, "Test Chore", true, 1⟩ : Chore), ⟨2, "Other", false, 2⟩] ∧
    (⟨2, "Other", false, 2⟩ : Chore).id = 2 :=
  (c10_get_chore_spec [⟨1, "Test Chore", true, 1⟩, ⟨2, "Other", false, 2⟩] 2).2.1
    ⟨2, "Other", false, 2⟩ (by decide)
